import Mathlib

/-
Verification of the NoteMesh frontend's note-sharing and unified-visibility
core (src/frontend/js/notes.js, src/frontend/js/ui.js, src/frontend/js/api.js)
against its natural-language specification.

JavaScript objects are shallowly embedded as a first-order value type `JsVal`;
property access, truthiness, strict equality (===), the logical operators
(||, &&, ?.) and object spread are modelled explicitly.  Asynchronous remote
calls are modelled by passing each sub-query's settled outcome
(`Except errMsg response`) as an argument; a thrown error is `Except.error`.
-/

namespace NoteMesh

/-- Model of a JavaScript value.  `jsUndefined` is the `undefined` value (the result
of reading an absent property), distinct from `null`.  Objects are ordered
field lists; numbers are modelled as integers (all numbers handled by the
verified code are counts and ids). -/
inductive JsVal where
  | jsUndefined : JsVal
  | null : JsVal
  | bool : Bool → JsVal
  | num : Int → JsVal
  | str : String → JsVal
  | arr : List JsVal → JsVal
  | obj : List (String × JsVal) → JsVal

/-- First-match lookup of a key in an object's field list. -/
def lookupField : List (String × JsVal) → String → Option JsVal
  | [], _ => none
  | (k, v) :: rest, key => if k = key then some v else lookupField rest key

/-- Property access `o[k]`: reading any key off a non-object, or an absent
key, yields `undefined`. -/
def JsVal.get (o : JsVal) (k : String) : JsVal :=
  match o with
  | .obj fs => (lookupField fs k).getD .jsUndefined
  | _ => .jsUndefined

/-- JavaScript truthiness: `undefined`, `null`, `false`, `0` and the empty
string are falsy; every object and array is truthy. -/
def truthy : JsVal → Bool
  | .jsUndefined => false
  | .null => false
  | .bool b => b
  | .num n => n != 0
  | .str s => s != ""
  | .arr _ => true
  | .obj _ => true

/-- Strict equality `===` on the values the verified code compares: primitives
compare structurally; two distinct objects or arrays in the compared positions
are different references, hence `false` (the embedding does not track object
identity; every `===` in the embedded code compares primitive ids, usernames
or booleans). -/
def jsStrictEq : JsVal → JsVal → Bool
  | .jsUndefined, .jsUndefined => true
  | .null, .null => true
  | .bool a, .bool b => a == b
  | .num a, .num b => a == b
  | .str a, .str b => a == b
  | _, _ => false

/-- Optional chaining `o?.k`: `undefined` when `o` is null/undefined. -/
def optChain (o : JsVal) (k : String) : JsVal :=
  match o with
  | .jsUndefined => .jsUndefined
  | .null => .jsUndefined
  | _ => o.get k

/-- Logical OR `a || b` returning the first truthy operand (JS semantics). -/
def jsOr (a b : JsVal) : JsVal := if truthy a then a else b

/-- Overriding assignment of one field, as performed by the object spread
`{...o, k: v}`: the key keeps its position when present, else is appended. -/
def setField (fs : List (String × JsVal)) (k : String) (v : JsVal) :
    List (String × JsVal) :=
  if fs.any (fun p => p.1 = k) then
    fs.map (fun p => if p.1 = k then (k, v) else p)
  else fs ++ [(k, v)]

/-- Object spread `{...o, k: v}`; spreading a non-object contributes no
fields, so only the new key remains. -/
def JsVal.withField (o : JsVal) (k : String) (v : JsVal) : JsVal :=
  match o with
  | .obj fs => .obj (setField fs k v)
  | _ => .obj [(k, v)]

/-- NotesManager.markNotesAsType (notes.js 70-75):
`notes.map(note => ({...note, note_type: type}))`. -/
def markNotesAsType (notes : List JsVal) (type : JsVal) : List JsVal :=
  notes.map (fun note => note.withField "note_type" type)

/-- NotesManager.isUserOwner (notes.js 151-162), verbatim translation of the
five ownership signals, guarded by `if (!currentUser) return false`. -/
def isUserOwner (note currentUser : JsVal) : Bool :=
  if !truthy currentUser then false
  else
    jsStrictEq (note.get "is_owned") (.bool true) ||
    jsStrictEq (note.get "can_edit") (.bool true) ||
    (truthy (note.get "owner") &&
      jsStrictEq ((note.get "owner").get "id") (currentUser.get "id")) ||
    jsStrictEq (note.get "owner_id") (currentUser.get "id") ||
    jsStrictEq (optChain (note.get "owner") "username") (currentUser.get "username")

/-- Capability flags read off the note-detail view: whether the edit, share
and delete buttons are displayed. -/
structure Capabilities where
  can_edit : Bool
  can_share : Bool
  can_delete : Bool
deriving DecidableEq, Repr

/-- NotesManager.renderNoteDetail, lines 367-370: each of the three action
buttons is displayed exactly when `isUserOwner(note, currentUser)` holds. -/
def renderNoteDetailCapabilities (note currentUser : JsVal) : Capabilities :=
  let isOwner := isUserOwner note currentUser
  { can_edit := isOwner, can_share := isOwner, can_delete := isOwner }

/-- ApiClient._mapSharedNoteToRegular (api.js 707-725): normalizes a
SharedNoteResponse into the regular Note shape; `can_edit := !!can_write`,
`view_count` and `share_count` default to 0. -/
def mapSharedNoteToRegular (shared : JsVal) : JsVal :=
  .obj [
    ("id", shared.get "id"),
    ("title", shared.get "title"),
    ("content", shared.get "content"),
    ("tags", jsOr (shared.get "tags") (.arr [])),
    ("hyperlinks", jsOr (shared.get "hyperlinks") (.arr [])),
    ("is_public", .bool false),
    ("owner_id", shared.get "owner_id"),
    ("owner_username", shared.get "owner_username"),
    ("is_shared", .bool true),
    ("can_edit", .bool (truthy (shared.get "can_write"))),
    ("created_at", shared.get "created_at"),
    ("updated_at", shared.get "updated_at"),
    ("view_count", .num 0),
    ("share_count", .num 0)]

/-- Response shape of `apiClient.getNotes`: `items` array plus `total`
(counts are natural numbers). -/
structure OwnedNotesResponse where
  items : List JsVal
  total : Nat

/-- Response shape of `apiClient.getSharedWithMe` / `getMyShares`:
`shares := none` models a missing or non-array `shares` field (the code
guards with `Array.isArray`); `total_count := none` models a missing
`total_count` (the code applies `|| 0`). -/
structure SharesResponse where
  shares : Option (List JsVal)
  total_count : Option Nat

/-- Warning emitted by a swallowed optional-sub-query failure in
NotesManager.loadNotes (the `console.warn` branches, notes.js 37-40 and
51-54), carrying the caught error's message. -/
inductive LoadWarning where
  | sharedWithMeFailed : String → LoadWarning
  | sharedByMeFailed : String → LoadWarning
deriving DecidableEq, Repr

/-- State NotesManager.loadNotes leaves behind on successful completion:
the rendered item list, the page count used for pagination, and the
warnings reported along the way. -/
structure LoadedState where
  currentNotes : List JsVal
  totalPages : Nat
  warnings : List LoadWarning

/-- Math.ceil(total / pageSize) on natural counts (pageSize positive). -/
def jsCeilDiv (total pageSize : Nat) : Nat := (total + pageSize - 1) / pageSize

/-- Defaulting `filters.owner_filter || 'all'` (notes.js line 20): a missing
or empty-string filter falls back to `'all'`. -/
def effectiveOwnerFilter : Option String → String
  | some s => if s = "" then "all" else s
  | none => "all"

/-- NotesManager.loadNotes (notes.js 14-67).  The three sub-queries' settled
outcomes are passed in (`Except.error` models a rejected promise).  The
owned-notes block (23-27) runs unprotected inside the outer try, so its
failure aborts the whole operation (outer catch, 63-66: error surfaced, no
state rendered).  Each shared block (29-41, 43-55) has its own try/catch
that demotes a failure to a warning and continues.  A shared response
contributes only when it is truthy and its `shares` field is an array;
`total_count || 0` defaults a missing count to zero.  On success the page
count is `Math.ceil(total / itemsPerPage)` (line 58). -/
def loadNotes (ownerFilterRaw : Option String)
    (getNotesResult : Except String OwnedNotesResponse)
    (getSharedWithMeResult : Except String (Option SharesResponse))
    (getMySharesResult : Except String (Option SharesResponse))
    (itemsPerPage : Nat) : Except String LoadedState :=
  let ownerFilter := effectiveOwnerFilter ownerFilterRaw
  let ownedStep : Except String (List JsVal × Nat) :=
    if ownerFilter = "all" ∨ ownerFilter = "owned" then
      match getNotesResult with
      | .error e => .error e
      | .ok owned =>
          .ok (markNotesAsType owned.items (.str "owned"), owned.total)
    else .ok ([], 0)
  match ownedStep with
  | .error e => .error e
  | .ok (items1, total1) =>
    let swmStep : List JsVal × Nat × List LoadWarning :=
      if ownerFilter = "all" ∨ ownerFilter = "shared_with_me" then
        match getSharedWithMeResult with
        | .error e => (items1, total1, [.sharedWithMeFailed e])
        | .ok none => (items1, total1, [])
        | .ok (some r) =>
          match r.shares with
          | some sh =>
              (items1 ++ markNotesAsType sh (.str "shared-with-me"),
               total1 + r.total_count.getD 0, [])
          | none => (items1, total1, [])
      else (items1, total1, [])
    match swmStep with
    | (items2, total2, warns2) =>
      let sbmStep : List JsVal × Nat × List LoadWarning :=
        if ownerFilter = "all" ∨ ownerFilter = "shared_by_me" then
          match getMySharesResult with
          | .error e => (items2, total2, [.sharedByMeFailed e])
          | .ok none => (items2, total2, [])
          | .ok (some r) =>
            match r.shares with
            | some sh =>
                (items2 ++ markNotesAsType sh (.str "shared-by-me"),
                 total2 + r.total_count.getD 0, [])
            | none => (items2, total2, [])
        else (items2, total2, [])
      match sbmStep with
      | (items3, total3, warns3) =>
          .ok { currentNotes := items3,
                totalPages := jsCeilDiv total3 itemsPerPage,
                warnings := warns2 ++ warns3 }

/-- Body of the POST /sharing request built by ApiClient.shareNote
(api.js 598-624): the single recipient is wrapped in an array and the
argument `permission` is forwarded as `permission_level`. -/
structure SharePayload where
  note_id : JsVal
  shared_with_usernames : List JsVal
  permission_level : String

/-- ApiClient.shareNote's payload construction (api.js 599-603). -/
def shareNotePayload (noteId username : JsVal) (permission : String) :
    SharePayload :=
  { note_id := noteId
    shared_with_usernames := [username]
    permission_level := permission }

/-- Requests issued by SharingManager.confirmShare (ui.js 174-176): one
`apiClient.shareNote(currentNote.id, user.username, 'read')` per entry of
`sharedUsers`. -/
def confirmShareRequests (noteId : JsVal) (sharedUsers : List JsVal) :
    List SharePayload :=
  sharedUsers.map (fun user => shareNotePayload noteId (user.get "username") "read")

/-- Requests issued by NotesManager.shareNoteWithUsers (notes.js 491-493),
the note-save sharing flow: one
`apiClient.shareNote(noteId, user.username, 'read')` per entry of the
share list. -/
def shareNoteWithUsersRequests (noteId : JsVal) (usersList : List JsVal) :
    List SharePayload :=
  usersList.map (fun user => shareNotePayload noteId (user.get "username") "read")

/-- Combined report assembled by SharingManager.confirmShare out of the
`Promise.allSettled` results (ui.js 178-191): the number of fulfilled
requests and the usernames at the rejected positions. -/
structure ConfirmShareReport where
  successCount : Nat
  failedUsernames : List String
deriving DecidableEq, Repr

/-- SharingManager.confirmShare's result aggregation, with each recipient's
settlement given by `ok`:  `successful` counts the fulfilled results and
`failedUsernames` recovers, via `results.indexOf` on the (distinct)
settlement objects, the username at each rejected position. -/
def confirmShareReport (sharedUsers : List String) (ok : String → Bool) :
    ConfirmShareReport :=
  { successCount := (sharedUsers.filter ok).length
    failedUsernames := sharedUsers.filter (fun u => !ok u) }

/-- Toast reported by NotesManager.shareNoteWithUsers (notes.js 495-501):
`Promise.all` either fulfills (success toast naming the recipient count) or
rejects into the catch branch (one fixed warning string with no recipient
names and no success count). -/
inductive ShareBatchToast where
  | success : Nat → ShareBatchToast
  | genericWarning : ShareBatchToast
deriving DecidableEq, Repr

/-- NotesManager.shareNoteWithUsers' reporting, with each recipient's
settlement given by `ok`: `Promise.all(promises)` fulfills iff every share
request fulfills. -/
def shareNoteWithUsersToast (usersList : List String) (ok : String → Bool) :
    ShareBatchToast :=
  if usersList.all ok then .success usersList.length else .genericWarning

/-- Entry of NotesManager.shareList / SharingManager.sharedUsers. -/
structure ShareEntry where
  username : String
  permission : String
deriving DecidableEq, Repr

/-- Username format test `/^[a-zA-Z0-9_]{3,20}$/` (notes.js 440,
ui.js 110). -/
def usernameFormatOk (u : String) : Bool :=
  3 ≤ u.length && u.length ≤ 20 &&
    u.data.all (fun c => c.isAlpha || c.isDigit || c = '_')

/-- Outcome of an attempt to add a recipient to the share list. -/
inductive AddUserOutcome where
  | emptyInput
  | selfShare
  | tooShort
  | duplicate
  | badFormat
  | added
deriving DecidableEq, Repr

/-- NotesManager.validateAndAddUser (notes.js 411-456): rejects sharing with
oneself, then usernames shorter than 3, then duplicates already in the
list, then the format test; only then pushes the entry with permission
'read'.  The function issues no network request (the validation is
explicitly optimistic); the third component records the requests issued,
which is always the empty list. -/
def validateAndAddUser (currentUsername : Option String)
    (shareList : List ShareEntry) (username : String) :
    AddUserOutcome × List ShareEntry × List SharePayload :=
  if some username = currentUsername then
    (.selfShare, shareList, [])
  else if username.length < 3 then
    (.tooShort, shareList, [])
  else if shareList.any (fun user => user.username = username) then
    (.duplicate, shareList, [])
  else if !usernameFormatOk username then
    (.badFormat, shareList, [])
  else
    (.added, shareList ++ [{ username := username, permission := "read" }], [])

/-- SharingManager.addUserToShare (ui.js 95-130): rejects the empty input,
then self-sharing, then the format test, then duplicates; only then pushes
the entry with permission 'read' (and pending flag).  No network request is
issued (the share is created only when the modal is confirmed). -/
def addUserToShare (currentUsername : Option String)
    (sharedUsers : List ShareEntry) (username : String) :
    AddUserOutcome × List ShareEntry × List SharePayload :=
  if username = "" then
    (.emptyInput, sharedUsers, [])
  else if some username = currentUsername then
    (.selfShare, sharedUsers, [])
  else if !usernameFormatOk username then
    (.badFormat, sharedUsers, [])
  else if sharedUsers.any (fun user => user.username = username) then
    (.duplicate, sharedUsers, [])
  else
    (.added, sharedUsers ++ [{ username := username, permission := "read" }], [])

/-- Decides whether the first character list starts the second. -/
def isPrefixChars : List Char → List Char → Bool
  | [], _ => true
  | _ :: _, [] => false
  | a :: as, b :: bs => a == b && isPrefixChars as bs

/-- String.prototype.includes: contiguous-substring test, on char lists. -/
def containsSub (needle : List Char) : List Char → Bool
  | [] => needle.isEmpty
  | b :: bs => isPrefixChars needle (b :: bs) || containsSub needle bs

/-- Test `msg.includes('not found') || msg.includes('404')` on the lowercased
error message (api.js 531-532); lowercasing is per-character (every error
message produced by the client is ASCII). -/
def msgIndicatesNotFound (msg : String) : Bool :=
  let m := msg.data.map Char.toLower
  containsSub "not found".data m || containsSub "404".data m

/-- ApiClient.getNote (api.js 526-544, the client version with the shared-note
fallback).  `direct` is the settled outcome of GET /notes/id, `fallback`
that of GET /sharing/notes/id.  On a direct error whose message indicates
not-found, a truthy fallback response is normalized through
`_mapSharedNoteToRegular`; a falsy fallback response, a fallback error, or
any other direct error re-throws the original error. -/
def getNote (direct : Except String JsVal) (fallback : Except String JsVal) :
    Except String JsVal :=
  match direct with
  | .ok v => .ok v
  | .error msg =>
    if msgIndicatesNotFound msg then
      match fallback with
      | .ok shared =>
          if truthy shared then .ok (mapSharedNoteToRegular shared)
          else .error msg
      | .error _ => .error msg
    else .error msg

section FieldLemmas

theorem lookupField_map_override (fs : List (String × JsVal)) (k : String)
    (v : JsVal) (hmem : fs.any (fun p => p.1 = k) = true) :
    lookupField (fs.map (fun p => if p.1 = k then (k, v) else p)) k = some v := by
  induction fs with
  | nil => simp at hmem
  | cons hd tl ih =>
    simp only [List.map_cons]
    by_cases h : hd.1 = k
    · rw [if_pos h]
      simp [lookupField]
    · rw [if_neg h]
      simp only [List.any_cons, Bool.or_eq_true, decide_eq_true_eq] at hmem
      rcases hmem with h' | h'
      · exact absurd h' h
      · simp [lookupField, h, ih h']

theorem lookupField_map_other (fs : List (String × JsVal)) (k k' : String)
    (v : JsVal) (hne : k' ≠ k) :
    lookupField (fs.map (fun p => if p.1 = k then (k, v) else p)) k' =
      lookupField fs k' := by
  induction fs with
  | nil => rfl
  | cons hd tl ih =>
    simp only [List.map_cons]
    by_cases h : hd.1 = k
    · rw [if_pos h]
      have h3 : hd.1 ≠ k' := by rw [h]; exact Ne.symm hne
      simp [lookupField, Ne.symm hne, h3, ih]
    · rw [if_neg h]
      by_cases h4 : hd.1 = k'
      · simp [lookupField, h4]
      · simp [lookupField, h4, ih]

theorem lookupField_append_new (fs : List (String × JsVal)) (k : String)
    (v : JsVal) : lookupField (fs ++ [(k, v)]) k =
      (lookupField fs k).orElse (fun _ => some v) := by
  induction fs with
  | nil => simp [lookupField]
  | cons hd tl ih =>
    by_cases h : hd.1 = k
    · simp [lookupField, h]
    · simp [lookupField, h, ih]

theorem lookupField_append_other (fs : List (String × JsVal)) (k k' : String)
    (v : JsVal) (hne : k' ≠ k) :
    lookupField (fs ++ [(k, v)]) k' = lookupField fs k' := by
  induction fs with
  | nil => simp [lookupField, Ne.symm hne]
  | cons hd tl ih =>
    by_cases h : hd.1 = k'
    · simp [lookupField, h]
    · simp [lookupField, h, ih]

theorem lookupField_none_of_not_any (fs : List (String × JsVal)) (k : String)
    (h : fs.any (fun p => p.1 = k) = false) : lookupField fs k = none := by
  induction fs with
  | nil => rfl
  | cons hd tl ih =>
    simp only [List.any_cons, Bool.or_eq_false_iff, decide_eq_false_iff_not] at h
    simp [lookupField, h.1, ih h.2]

/-- Reading back the just-written field of an object spread. -/
theorem withField_get_self (o : JsVal) (k : String) (v : JsVal) :
    (o.withField k v).get k = v := by
  cases o with
  | obj fs =>
    simp only [JsVal.withField, setField, JsVal.get]
    by_cases h : (fs.any fun p => decide (p.1 = k)) = true
    · rw [if_pos h, lookupField_map_override fs k v h]
      rfl
    · rw [if_neg h, lookupField_append_new,
        lookupField_none_of_not_any fs k (by simpa only [Bool.not_eq_true] using h)]
      rfl
  | jsUndefined => simp [JsVal.withField, JsVal.get, lookupField]
  | null => simp [JsVal.withField, JsVal.get, lookupField]
  | bool b => simp [JsVal.withField, JsVal.get, lookupField]
  | num n => simp [JsVal.withField, JsVal.get, lookupField]
  | str s => simp [JsVal.withField, JsVal.get, lookupField]
  | arr xs => simp [JsVal.withField, JsVal.get, lookupField]

/-- An object spread leaves every other field unchanged. -/
theorem withField_get_other (o : JsVal) (k k' : String) (v : JsVal)
    (hne : k' ≠ k) : (o.withField k v).get k' = o.get k' := by
  cases o with
  | obj fs =>
    simp only [JsVal.withField, setField, JsVal.get]
    by_cases h : (fs.any fun p => decide (p.1 = k)) = true
    · rw [if_pos h, lookupField_map_other fs k k' v hne]
    · rw [if_neg h, lookupField_append_other fs k k' v hne]
  | jsUndefined => simp [JsVal.withField, JsVal.get, lookupField, Ne.symm hne]
  | null => simp [JsVal.withField, JsVal.get, lookupField, Ne.symm hne]
  | bool b => simp [JsVal.withField, JsVal.get, lookupField, Ne.symm hne]
  | num n => simp [JsVal.withField, JsVal.get, lookupField, Ne.symm hne]
  | str s => simp [JsVal.withField, JsVal.get, lookupField, Ne.symm hne]
  | arr xs => simp [JsVal.withField, JsVal.get, lookupField, Ne.symm hne]

end FieldLemmas

/-- C9: for every list of notes and every type tag, markNotesAsType returns a
list of the same length in which the element at every position has
`note_type` equal to the given tag (overwriting any pre-existing
`note_type`) and every other field equal to that of the input note at the
same position.  The input list is untouched: the embedded
`notes.map(note => ({...note, note_type: type}))` builds fresh objects and
never writes through its argument. -/
theorem markNotesAsType_frame (notes : List JsVal) (type : JsVal) :
    (markNotesAsType notes type).length = notes.length ∧
    ∀ (i : Nat) (note : JsVal), notes[i]? = some note →
      ∃ marked : JsVal, (markNotesAsType notes type)[i]? = some marked ∧
        marked.get "note_type" = type ∧
        ∀ k, k ≠ "note_type" → marked.get k = note.get k := by
  constructor
  · simp [markNotesAsType]
  · intro i note h
    refine ⟨note.withField "note_type" type, ?_, ?_, ?_⟩
    · simp [markNotesAsType, List.getElem?_map, h]
    · exact withField_get_self note "note_type" type
    · intro k hk
      exact withField_get_other note "note_type" k type hk

/-- Witness for C9 at a concrete input: a one-note list with a pre-existing
`note_type` field gets it overwritten, and the title is preserved. -/
theorem markNotesAsType_frame_witness :
    ∃ marked : JsVal,
      (markNotesAsType [JsVal.obj [("title", .str "t"), ("note_type", .str "old")]]
        (.str "owned"))[0]? = some marked ∧
      marked.get "note_type" = .str "owned" ∧
      marked.get "title" = .str "t" := by
  obtain ⟨-, h⟩ :=
    markNotesAsType_frame
      [JsVal.obj [("title", .str "t"), ("note_type", .str "old")]] (.str "owned")
  obtain ⟨marked, h1, h2, h3⟩ :=
    h 0 (JsVal.obj [("title", .str "t"), ("note_type", .str "old")]) rfl
  exact ⟨marked, h1, h2, by
    rw [h3 "title" (by decide)]; rfl⟩

/-- C10: isUserOwner returns false for a null or undefined current user,
whatever the note contains — the `if (!currentUser) return false` guard
fires before any note field is read. -/
theorem isUserOwner_no_current_user (note : JsVal) :
    isUserOwner note .null = false ∧ isUserOwner note .jsUndefined = false := by
  simp [isUserOwner, truthy]

/-- C3: every share-creation request issued by the share-confirmation flow
(SharingManager.confirmShare) and by the note-save flow
(NotesManager.shareNoteWithUsers) carries permission level 'read': both
flows hardcode 'read' at the call site, so no caller-supplied permission
can reach the request body. -/
theorem sharing_flows_always_read (noteId : JsVal) (users : List JsVal) :
    (∀ p ∈ confirmShareRequests noteId users, p.permission_level = "read") ∧
    (∀ p ∈ shareNoteWithUsersRequests noteId users, p.permission_level = "read") := by
  constructor
  · intro p hp
    simp only [confirmShareRequests, List.mem_map] at hp
    obtain ⟨u, -, rfl⟩ := hp
    rfl
  · intro p hp
    simp only [shareNoteWithUsersRequests, List.mem_map] at hp
    obtain ⟨u, -, rfl⟩ := hp
    rfl

/-- Witness for C3: both flows, sharing note "n1" with user "bob", produce a
request whose permission_level is 'read'. -/
theorem sharing_flows_always_read_witness :
    (shareNotePayload (.str "n1")
        ((JsVal.obj [("username", .str "bob")]).get "username") "read").permission_level
      = "read" ∧
    (shareNotePayload (.str "n1")
        ((JsVal.obj [("username", .str "bob")]).get "username") "read").permission_level
      = "read" :=
  ⟨(sharing_flows_always_read (.str "n1") [JsVal.obj [("username", .str "bob")]]).1
      _ (by simp [confirmShareRequests]),
   (sharing_flows_always_read (.str "n1") [JsVal.obj [("username", .str "bob")]]).2
      _ (by simp [shareNoteWithUsersRequests])⟩

/-- C5 counterexample: the note-save sharing flow
(NotesManager.shareNoteWithUsers) settles its batch through `Promise.all`
and reports one fixed generic warning whenever any recipient fails.  With
recipients [alice, bob] where only bob fails, with [alice, carol] where
only carol fails, and with [alice, bob] where both fail, the reported
result is the identical `genericWarning` value, so the report neither
states the number of successes nor names the failed recipients, contrary
to the claim. -/
theorem shareNoteWithUsers_report_counterexample :
    shareNoteWithUsersToast ["alice", "bob"] (fun u => u == "alice") =
      .genericWarning ∧
    shareNoteWithUsersToast ["alice", "carol"] (fun u => u == "alice") =
      .genericWarning ∧
    shareNoteWithUsersToast ["alice", "bob"] (fun _ => false) =
      .genericWarning := by
  exact ⟨rfl, rfl, rfl⟩

/-- C5 amended: in the share-confirmation flow (SharingManager.confirmShare),
the N concurrent requests are all awaited via `Promise.allSettled` and the
combined report states the success count and names exactly the failed
recipients — no recipient's success is removed by another's failure.  In
the note-save flow (NotesManager.shareNoteWithUsers), the concurrent
requests are combined by `Promise.all`: the report names the recipient
count only when every recipient succeeds, and otherwise is a single
generic warning with no success count and no failed names. -/
theorem batch_share_reports (users : List String) (ok : String → Bool) :
    (confirmShareReport users ok).successCount = (users.filter ok).length ∧
    (∀ u, u ∈ (confirmShareReport users ok).failedUsernames ↔
      (u ∈ users ∧ ok u = false)) ∧
    (confirmShareReport users ok).successCount +
      (confirmShareReport users ok).failedUsernames.length = users.length ∧
    (∀ u, u ∈ users → ok u = true →
      u ∉ (confirmShareReport users ok).failedUsernames) ∧
    shareNoteWithUsersToast users ok =
      (if users.all ok then .success users.length else .genericWarning) := by
  refine ⟨rfl, ?_, ?_, ?_, rfl⟩
  · intro u
    simp [confirmShareReport, List.mem_filter]
  · simp only [confirmShareReport]
    induction users with
    | nil => rfl
    | cons hd tl ih =>
      by_cases h : ok hd = true
      · simp [List.filter_cons, h, Nat.succ_add, ih]
      · simp only [Bool.not_eq_true] at h
        simp [List.filter_cons, h, ih]
        omega
  · intro u hu hok
    simp [confirmShareReport, List.mem_filter, hok]

/-- Witness for C5 amended at recipients [alice, bob] where only bob fails:
one success is counted, bob is named failed, alice is not. -/
theorem batch_share_reports_witness :
    (confirmShareReport ["alice", "bob"] (fun u => u == "alice")).successCount = 1 ∧
    ("bob" ∈ (confirmShareReport ["alice", "bob"]
      (fun u => u == "alice")).failedUsernames) ∧
    ("alice" ∉ (confirmShareReport ["alice", "bob"]
      (fun u => u == "alice")).failedUsernames) := by
  obtain ⟨h1, h2, h3, h4, h5⟩ :=
    batch_share_reports ["alice", "bob"] (fun u => u == "alice")
  refine ⟨h1.trans (by decide), (h2 "bob").mpr (by decide), ?_⟩
  exact h4 "alice" (by decide) (by decide)

/-- C7: in both add-recipient entry points (NotesManager.validateAndAddUser
and SharingManager.addUserToShare), no network request is ever issued;
self-sharing is rejected; a username failing the 3-20
alphanumeric/underscore format is rejected; any rejection leaves the share
list unchanged; and an accepted username is appended exactly once, with
permission 'read'. -/
theorem add_share_recipient_validation (cu : Option String)
    (list : List ShareEntry) (u : String) :
    (validateAndAddUser cu list u).2.2 = [] ∧
    (addUserToShare cu list u).2.2 = [] ∧
    (some u = cu → (validateAndAddUser cu list u).1 = .selfShare) ∧
    (u ≠ "" → some u = cu → (addUserToShare cu list u).1 = .selfShare) ∧
    (usernameFormatOk u = false → (validateAndAddUser cu list u).1 ≠ .added) ∧
    (usernameFormatOk u = false → (addUserToShare cu list u).1 ≠ .added) ∧
    ((validateAndAddUser cu list u).1 ≠ .added →
      (validateAndAddUser cu list u).2.1 = list) ∧
    ((addUserToShare cu list u).1 ≠ .added →
      (addUserToShare cu list u).2.1 = list) ∧
    (¬ some u = cu → list.any (fun e => e.username = u) = false →
      usernameFormatOk u = true →
      validateAndAddUser cu list u =
        (.added, list ++ [{ username := u, permission := "read" }], []) ∧
      (list ++ [({ username := u, permission := "read" } : ShareEntry)]).filter
        (fun e => e.username = u) = [{ username := u, permission := "read" }]) ∧
    (u ≠ "" → ¬ some u = cu → list.any (fun e => e.username = u) = false →
      usernameFormatOk u = true →
      addUserToShare cu list u =
        (.added, list ++ [{ username := u, permission := "read" }], []) ∧
      (list ++ [({ username := u, permission := "read" } : ShareEntry)]).filter
        (fun e => e.username = u) = [{ username := u, permission := "read" }]) := by
  have hfilter : list.any (fun e => e.username = u) = false →
      (list ++ [({ username := u, permission := "read" } : ShareEntry)]).filter
        (fun e => e.username = u) =
        [{ username := u, permission := "read" }] := by
    intro hany
    rw [List.filter_append]
    have h1 : list.filter (fun e => decide (e.username = u)) = [] :=
      List.filter_eq_nil_iff.mpr (fun a ha => by
        simpa using List.any_eq_false.mp hany a ha)
    simp [h1]
  refine ⟨?_, ?_, ?_, ?_, ?_, ?_, ?_, ?_, ?_, ?_⟩
  · unfold validateAndAddUser
    split_ifs <;> rfl
  · unfold addUserToShare
    split_ifs <;> rfl
  · intro h
    unfold validateAndAddUser
    rw [if_pos h]
  · intro hne h
    unfold addUserToShare
    rw [if_neg hne, if_pos h]
  · intro h
    unfold validateAndAddUser
    split_ifs with h1 h2 h3 h4
    · simp
    · simp
    · simp
    · simp
    · exact absurd (by rw [h]; rfl : (!usernameFormatOk u) = true) h4
  · intro h
    unfold addUserToShare
    split_ifs with h1 h2 h3 h4
    · simp
    · simp
    · simp
    · simp
    · exact absurd (by rw [h]; rfl : (!usernameFormatOk u) = true) h3
  · unfold validateAndAddUser
    split_ifs
    · exact fun _ => rfl
    · exact fun _ => rfl
    · exact fun _ => rfl
    · exact fun _ => rfl
    · exact fun hc => absurd rfl hc
  · unfold addUserToShare
    split_ifs
    · exact fun _ => rfl
    · exact fun _ => rfl
    · exact fun _ => rfl
    · exact fun _ => rfl
    · exact fun hc => absurd rfl hc
  · intro h1 h3 h4
    have hlen : ¬ u.length < 3 := by
      simp only [usernameFormatOk, Bool.and_eq_true, decide_eq_true_eq] at h4
      omega
    have hdup : ¬ (list.any fun e => e.username = u) = true := by
      simp [h3]
    refine ⟨?_, hfilter h3⟩
    unfold validateAndAddUser
    rw [if_neg h1, if_neg hlen, if_neg hdup, if_neg (by simp [h4])]
  · intro h0 h1 h3 h4
    have hdup : ¬ (list.any fun e => e.username = u) = true := by
      simp [h3]
    refine ⟨?_, hfilter h3⟩
    unfold addUserToShare
    rw [if_neg h0, if_neg h1, if_neg (by simp [h4]), if_neg hdup]

/-- Witness for C7: current user alice, empty share list.  Adding "bob"
succeeds and appends a read entry exactly once; adding "alice" is rejected
as self-sharing with the list unchanged; adding "x!" is rejected by the
format test in both entry points. -/
theorem add_share_recipient_validation_witness :
    validateAndAddUser (some "alice") [] "bob" =
      (.added, [{ username := "bob", permission := "read" }], []) ∧
    (validateAndAddUser (some "alice") [] "alice").1 = .selfShare ∧
    (addUserToShare (some "alice") [] "alice").1 = .selfShare ∧
    (validateAndAddUser (some "alice") [] "x!").1 ≠ .added ∧
    (addUserToShare (some "alice") [] "x!").1 ≠ .added := by
  obtain ⟨-, -, -, -, -, -, -, -, hadd, -⟩ :=
    add_share_recipient_validation (some "alice") [] "bob"
  obtain ⟨-, -, hselfv, -, -, -, -, -, -, -⟩ :=
    add_share_recipient_validation (some "alice") [] "alice"
  obtain ⟨-, -, -, hselfu, -, -, -, -, -, -⟩ :=
    add_share_recipient_validation (some "alice") [] "alice"
  obtain ⟨-, -, -, -, hfmtv, hfmtu, -, -, -, -⟩ :=
    add_share_recipient_validation (some "alice") [] "x!"
  exact ⟨(hadd (by decide) (by decide) (by decide)).1, hselfv rfl,
    hselfu (by decide) rfl, hfmtv (by decide), hfmtu (by decide)⟩

/-- C8: when the direct note lookup fails with an error message indicating
not-found/404, getNote falls back to the shared-note endpoint and returns
the fallback response normalized into the regular Note shape, with
`can_edit` the boolean value of the fallback's `can_write` and both counts
defaulted to zero; a direct failure with any other message, or a failed
fallback, propagates the original error. -/
theorem getNote_fallback_spec :
    (∀ (msg : String) (shared : JsVal), msgIndicatesNotFound msg = true →
      truthy shared = true →
      getNote (.error msg) (.ok shared) = .ok (mapSharedNoteToRegular shared) ∧
      (mapSharedNoteToRegular shared).get "can_edit" =
        .bool (truthy (shared.get "can_write")) ∧
      (mapSharedNoteToRegular shared).get "view_count" = .num 0 ∧
      (mapSharedNoteToRegular shared).get "share_count" = .num 0) ∧
    (∀ (msg : String) (fallback : Except String JsVal),
      msgIndicatesNotFound msg = false →
      getNote (.error msg) fallback = .error msg) ∧
    (∀ (msg e : String), getNote (.error msg) (.error e) = .error msg) := by
  refine ⟨?_, ?_, ?_⟩
  · intro msg shared h1 h2
    refine ⟨?_, rfl, rfl, rfl⟩
    simp [getNote, h1, h2]
  · intro msg fallback h
    cases fallback <;> simp [getNote, h]
  · intro msg e
    by_cases h : msgIndicatesNotFound msg = true <;> simp [getNote, h]

/-- Witness for C8: a direct 404 with a truthy shared response carrying
can_write=true maps to a note with can_edit=true and zero counts; the
message "server exploded" does not trigger the fallback. -/
theorem getNote_fallback_spec_witness :
    getNote (.error "HTTP 404: Not Found")
        (.ok (.obj [("can_write", .bool true)])) =
      .ok (mapSharedNoteToRegular (.obj [("can_write", .bool true)])) ∧
    (mapSharedNoteToRegular (.obj [("can_write", .bool true)])).get "can_edit" =
      .bool true ∧
    getNote (.error "server exploded") (.ok (.obj [])) = .error "server exploded" ∧
    getNote (.error "HTTP 404: Not Found") (.error "boom") =
      .error "HTTP 404: Not Found" := by
  obtain ⟨h1, h2, h3⟩ := getNote_fallback_spec
  obtain ⟨ha, hb, -, -⟩ := h1 "HTTP 404: Not Found" (.obj [("can_write", .bool true)])
    (by decide) rfl
  exact ⟨ha, hb, h2 "server exploded" (.ok (.obj [])) (by decide),
    h3 "HTTP 404: Not Found" "boom"⟩

/-- C4: partial-failure policy of loadNotes.  A failing shared-with-me or
shared-by-me sub-query only adds a warning and the operation still returns
the items of the sources that succeeded; a failing owned sub-query under
owner_filter 'all' or 'owned' aborts the whole call, surfacing the error
with no rendered state. -/
theorem loadNotes_partial_failure :
    (∀ (owned : OwnedNotesResponse) (e1 e2 : String) (ipp : Nat),
      loadNotes (some "all") (.ok owned) (.error e1) (.error e2) ipp =
        .ok { currentNotes := markNotesAsType owned.items (.str "owned"),
              totalPages := jsCeilDiv owned.total ipp,
              warnings := [.sharedWithMeFailed e1, .sharedByMeFailed e2] }) ∧
    (∀ (owned : OwnedNotesResponse) (sh : List JsVal) (tc : Option Nat)
        (e : String) (ipp : Nat),
      loadNotes (some "all") (.ok owned)
          (.ok (some { shares := some sh, total_count := tc })) (.error e) ipp =
        .ok { currentNotes := markNotesAsType owned.items (.str "owned") ++
                markNotesAsType sh (.str "shared-with-me"),
              totalPages := jsCeilDiv (owned.total + tc.getD 0) ipp,
              warnings := [.sharedByMeFailed e] }) ∧
    (∀ (gn : Except String OwnedNotesResponse)
        (swm : Except String (Option SharesResponse)) (e : String) (ipp : Nat),
      loadNotes (some "shared_by_me") gn swm (.error e) ipp =
        .ok { currentNotes := [], totalPages := jsCeilDiv 0 ipp,
              warnings := [.sharedByMeFailed e] }) ∧
    (∀ (e : String) (swm sbm : Except String (Option SharesResponse)) (ipp : Nat),
      loadNotes (some "all") (.error e) swm sbm ipp = .error e ∧
      loadNotes (some "owned") (.error e) swm sbm ipp = .error e) := by
  refine ⟨?_, ?_, ?_, ?_⟩
  · intro owned e1 e2 ipp
    simp [loadNotes, effectiveOwnerFilter]
  · intro owned sh tc e ipp
    simp [loadNotes, effectiveOwnerFilter]
  · intro gn swm e ipp
    simp [loadNotes, effectiveOwnerFilter]
  · intro e swm sbm ipp
    constructor <;> simp [loadNotes, effectiveOwnerFilter]

/-- C6: on a successful loadNotes call, the total used for pagination is the
sum of the totals of the contributing sources (a missing total_count counts
as zero, via `|| 0`), and the page count is the ceiling of that total over
the page size, for each owner_filter. -/
theorem loadNotes_pagination_totals :
    (∀ (owned : OwnedNotesResponse) (s1 s2 : List JsVal) (t1 t2 : Option Nat)
        (ipp : Nat),
      (loadNotes (some "all") (.ok owned)
          (.ok (some { shares := some s1, total_count := t1 }))
          (.ok (some { shares := some s2, total_count := t2 })) ipp).map
        LoadedState.totalPages =
        .ok (jsCeilDiv (owned.total + t1.getD 0 + t2.getD 0) ipp)) ∧
    (∀ (owned : OwnedNotesResponse)
        (swm sbm : Except String (Option SharesResponse)) (ipp : Nat),
      (loadNotes (some "owned") (.ok owned) swm sbm ipp).map
        LoadedState.totalPages = .ok (jsCeilDiv owned.total ipp)) ∧
    (∀ (gn : Except String OwnedNotesResponse) (s : List JsVal)
        (t : Option Nat) (sbm : Except String (Option SharesResponse)) (ipp : Nat),
      (loadNotes (some "shared_with_me") gn
          (.ok (some { shares := some s, total_count := t })) sbm ipp).map
        LoadedState.totalPages = .ok (jsCeilDiv (t.getD 0) ipp)) ∧
    (∀ (gn : Except String OwnedNotesResponse)
        (swm : Except String (Option SharesResponse)) (s : List JsVal)
        (t : Option Nat) (ipp : Nat),
      (loadNotes (some "shared_by_me") gn swm
          (.ok (some { shares := some s, total_count := t })) ipp).map
        LoadedState.totalPages = .ok (jsCeilDiv (t.getD 0) ipp)) := by
  refine ⟨?_, ?_, ?_, ?_⟩
  · intro owned s1 s2 t1 t2 ipp
    simp [loadNotes, effectiveOwnerFilter, Except.map]
  · intro owned swm sbm ipp
    simp [loadNotes, effectiveOwnerFilter, Except.map]
  · intro gn s t sbm ipp
    simp [loadNotes, effectiveOwnerFilter, Except.map]
  · intro gn swm s t ipp
    simp [loadNotes, effectiveOwnerFilter, Except.map]

/-- Owned-notes response of the unified-display test scenario
(test_notes_unified_display.js 28-43): one owned note, id '1', already
shared out once. -/
def c1OwnedResponse : OwnedNotesResponse :=
  { items := [.obj [("id", .str "1"), ("title", .str "My Note"),
      ("is_shared_by_user", .bool true), ("share_count", .num 1),
      ("owner_id", .str "user1")]],
    total := 1 }

/-- Shared-with-me response of the test scenario: one received share
wrapping note id '2'. -/
def c1SharedWithMeResponse : SharesResponse :=
  { shares := some [.obj [("note", .obj [("id", .str "2")])]],
    total_count := some 1 }

/-- Shared-by-me response: the share that the owner of note '1' has granted
(the share the backend reports for GET /sharing?type=given). -/
def c1MySharesResponse : SharesResponse :=
  { shares := some [.obj [("note", .obj [("id", .str "1")])]],
    total_count := some 1 }

/-- C1 (refuting evaluation): with owner_filter 'all', loadNotes consumes the
shared-by-me source (notes.js line 43 tests `ownerFilter === 'all'`) and
appends its shares labeled 'shared-by-me', so the listing contains an item
carrying the shared-by-me label and the owned-and-shared note '1' appears
twice — once labeled owned, once wrapped in the shared-by-me item — while
the repository's own test (test_notes_unified_display.js 69-75) asserts
that the shared-by-me source is not consulted and no 'shared-by-me' label
appears for this very scenario. -/
theorem loadNotes_all_consumes_sharedByMe :
    (loadNotes (some "all") (.ok c1OwnedResponse)
        (.ok (some c1SharedWithMeResponse)) (.ok (some c1MySharesResponse)) 12).map
      (fun st => st.currentNotes.map (fun n => n.get "note_type")) =
      .ok [.str "owned", .str "shared-with-me", .str "shared-by-me"] ∧
    (loadNotes (some "all") (.ok c1OwnedResponse)
        (.ok (some c1SharedWithMeResponse)) (.ok (some c1MySharesResponse)) 12).map
      (fun st => st.currentNotes.map
        (fun n => jsOr (n.get "id") ((n.get "note").get "id"))) =
      .ok [.str "1", .str "2", .str "1"] ∧
    (loadNotes (some "all") (.ok c1OwnedResponse)
        (.ok (some c1SharedWithMeResponse)) (.ok (some c1MySharesResponse)) 12).map
      (fun st => st.currentNotes.length) = .ok 3 := by
  exact ⟨rfl, rfl, rfl⟩

/-- C2: capability display in the note-detail view.  If the requester is the
owner — i.e. isUserOwner accepts any of the equivalent signals (explicit
is_owned or can_edit flag, owner reference id equality, owner_id equality,
owner username equality) — then edit, share and delete are all granted.
For a signed-in requester who is not the owner of a note normalized from
the shared-note endpoint, the edit capability equals the write-ness of the
share permission (the fallback's can_write), and share and delete are
denied.  (When the requester is not the owner, can_write being truthy is
impossible — it would trip the can_edit ownership signal — so both sides
of the can_edit equation are false.) -/
theorem note_detail_capabilities :
    (∀ (note user : JsVal), isUserOwner note user = true →
      renderNoteDetailCapabilities note user =
        { can_edit := true, can_share := true, can_delete := true }) ∧
    (∀ (shared user : JsVal), truthy user = true →
      isUserOwner (mapSharedNoteToRegular shared) user = false →
      renderNoteDetailCapabilities (mapSharedNoteToRegular shared) user =
        { can_edit := truthy (shared.get "can_write"), can_share := false,
          can_delete := false }) := by
  constructor
  · intro note user h
    simp [renderNoteDetailCapabilities, h]
  · intro shared user hu howner
    have hce : (mapSharedNoteToRegular shared).get "can_edit" =
        .bool (truthy (shared.get "can_write")) := rfl
    have hcw : truthy (shared.get "can_write") = false := by
      by_contra hcontra
      have hcw' : truthy (shared.get "can_write") = true := by
        cases h : truthy (shared.get "can_write")
        · exact absurd h hcontra
        · rfl
      have : isUserOwner (mapSharedNoteToRegular shared) user = true := by
        unfold isUserOwner
        rw [hu]
        simp only [Bool.not_true, Bool.false_eq_true, if_false]
        rw [hce, hcw']
        simp [jsStrictEq]
      rw [this] at howner
      exact absurd howner (by simp)
    simp [renderNoteDetailCapabilities, howner, hcw]

/-- Witness for C2: an owner (matching owner_id) gets all three
capabilities; a signed-in non-owner viewing a read-only shared note
(can_write = false) gets none, with can_edit agreeing with can_write. -/
theorem note_detail_capabilities_witness :
    renderNoteDetailCapabilities
        (.obj [("owner_id", .str "u1")]) (.obj [("id", .str "u1")]) =
      { can_edit := true, can_share := true, can_delete := true } ∧
    renderNoteDetailCapabilities
        (mapSharedNoteToRegular
          (.obj [("owner_id", .str "o1"), ("can_write", .bool false)]))
        (.obj [("id", .str "u1"), ("username", .str "bob")]) =
      { can_edit := truthy ((JsVal.obj [("owner_id", .str "o1"),
          ("can_write", .bool false)]).get "can_write"),
        can_share := false, can_delete := false } := by
  obtain ⟨howner, hnon⟩ := note_detail_capabilities
  refine ⟨howner (.obj [("owner_id", .str "u1")]) (.obj [("id", .str "u1")]) ?_,
    hnon (.obj [("owner_id", .str "o1"), ("can_write", .bool false)])
      (.obj [("id", .str "u1"), ("username", .str "bob")]) rfl ?_⟩
  · rfl
  · rfl

end NoteMesh
